import Mathlib

/-
Formal model of `src/main.py` of the QRfont_recognition repository.

Python strings are modelled as lists of characters (`Str`), floats as exact
rationals (`ℚ`), and exceptions as `Except Unit`.  Python's `sorted`/`list.sort`
is a stable sort; it is modelled by `List.insertionSort` with a reflexive
(`≤`-style) key relation, which is likewise stable, so both produce the same
list.  The external collaborators (PyMuPDF rendering, the OpenCV detector,
command-line parsing, the direct text-extraction path) are modelled as abstract
inputs; everything downstream of them is translated from the source.
-/

/-- Python strings as lists of characters. -/
abbrev Str := List Char

/-- Python `str.strip()` with no argument: drop whitespace from both ends. -/
def pyStrip (s : Str) : Str :=
  ((s.dropWhile Char.isWhitespace).reverse.dropWhile Char.isWhitespace).reverse

/-- Python `str.strip("\n")`: drop newline characters from both ends
(line 174 of `main.py`). -/
def stripNewlines (s : Str) : Str :=
  ((s.dropWhile (· == '\n')).reverse.dropWhile (· == '\n')).reverse

/-- The spatial data computed for one detected symbol at lines 102-104 of
`main.py`: centroid y, centroid x, and bounding height (`size`). -/
structure Geom where
  cy : ℚ
  cx : ℚ
  size : ℚ
  deriving DecidableEq

/-- One entry of the per-page `items` list: the tuple `(cy, cx, text, size)`
built at line 108 of `main.py`. -/
structure Item where
  cy : ℚ
  cx : ℚ
  text : Str
  size : ℚ
  deriving DecidableEq

/-- The detector outcome for one page after the version-shape normalization of
lines 76-94 of `main.py`: the decoded payload list, and the geometry list when
`points` is not `None`.  A `none` entry inside the geometry list models the
per-symbol `try`/`except` at lines 101-106: computing that symbol's centroid
and height raised, so the symbol is skipped by `continue`. -/
structure PageDetect where
  decoded_info : List Str
  points : Option (List (Option Geom))

/-- One page of the input document as seen by `decode_qr_from_pdf`.
`renderFail` models an exception raised while rendering the page (lines 66-71,
which no `try`/`except` guards); `page d` models a page that rendered and whose
detector call produced the normalized outcome `d`. -/
inductive PageInput where
  | renderFail
  | page (d : PageDetect)

/-- Lines 96-108 of `main.py`: pair payloads with geometry only when `points`
is present and both lists have equal length; skip a symbol whose geometry
computation raised, and drop payloads that decoded to the empty string. -/
def buildItems (d : PageDetect) : List Item :=
  match d.points with
  | none => []
  | some pts =>
    if d.decoded_info.length = pts.length then
      (d.decoded_info.zip pts).filterMap fun p =>
        match p.2 with
        | none => none
        | some g => if p.1 ≠ [] then some ⟨g.cy, g.cx, p.1, g.size⟩ else none
    else []

/-- Python `statistics.median`: middle element of the sorted data for odd
length, mean of the two middle elements for even length. -/
def median (l : List ℚ) : ℚ :=
  let s := List.insertionSort (· ≤ ·) l
  if l.length % 2 = 1 then s.getD (l.length / 2) 0
  else (s.getD (l.length / 2 - 1) 0 + s.getD (l.length / 2) 0) / 2

/-- Lines 118-120 of `main.py`: `statistics.median([...]) if items else 20.0`. -/
def median_h (items : List Item) : ℚ :=
  if items ≠ [] then median (items.map Item.size) else 20

/-- Line 121 of `main.py`: `y_threshold = max(5.0, 0.6 * median_h)`. -/
def y_threshold (items : List Item) : ℚ :=
  max 5 ((6 / 10) * median_h items)

/-- The sort key `(t[0], t[1])` of line 123 of `main.py`: lexicographic on
(centroid y, centroid x). -/
def yxLe (a b : Item) : Prop := a.cy < b.cy ∨ (a.cy = b.cy ∧ a.cx ≤ b.cx)

instance : DecidableRel yxLe := fun a b => by unfold yxLe; infer_instance

/-- The sort key `t[1]` of lines 138 and 144 of `main.py`: centroid x. -/
def xLe (a b : Item) : Prop := a.cx ≤ b.cx

instance : DecidableRel xLe := fun a b => by unfold xLe; infer_instance

instance : IsTotal Item xLe := ⟨fun a b => le_total a.cx b.cx⟩

instance : IsTrans Item xLe := ⟨fun _ _ _ => le_trans⟩

/-- `items.sort(key=lambda t: (t[0], t[1]))` (line 123): a stable sort by
(y, x). -/
def sortYX (l : List Item) : List Item := List.insertionSort yxLe l

/-- `current_line.sort(key=lambda t: t[1])` (lines 138, 144): a stable sort
by x. -/
def sortX (l : List Item) : List Item := List.insertionSort xLe l

/-- The loop-local state of the clustering pass at lines 124-126 of `main.py`:
the finished lines, the current cluster, and the running centroid y
(`None` before the first symbol is seen). -/
structure ClusterState where
  lines : List (List Item)
  current : List Item
  currentY : Option ℚ
  deriving DecidableEq

/-- One iteration of the clustering loop at lines 127-141 of `main.py`. -/
def clusterStep (thr : ℚ) (st : ClusterState) (it : Item) : ClusterState :=
  match st.currentY with
  | none => { st with current := [it], currentY := some it.cy }
  | some cy =>
    if |it.cy - cy| ≤ thr then
      { st with current := st.current ++ [it],
                currentY := some (cy * (7 / 10) + it.cy * (3 / 10)) }
    else
      { lines := st.lines ++ [sortX st.current], current := [it],
        currentY := some it.cy }

/-- Lines 143-145 of `main.py`: after the pass, finalize a non-empty remaining
cluster as the last line. -/
def clusterFinish (st : ClusterState) : List (List Item) :=
  if st.current ≠ [] then st.lines ++ [sortX st.current] else st.lines

/-- Lines 117-145 of `main.py`: cluster a page's items into lines by y, using
the running-average threshold, then sort each line by x. -/
def clusterLines (items : List Item) : List (List Item) :=
  clusterFinish ((sortYX items).foldl (clusterStep (y_threshold items)) ⟨[], [], none⟩)

/-- Lines 96-147 of `main.py` for one rendered page: build the items and, when
any were decoded, cluster them into lines; a page with no items contributes the
empty line list (lines 113-115). -/
def pageLines (d : PageDetect) : List (List Item) :=
  let items := buildItems d
  if items = [] then [] else clusterLines items

/-- The page loop at lines 63-147 of `main.py`.  A page whose rendering raises
aborts the whole loop: the exception propagates out of the `with` block, so the
result is an error and no later page is processed. -/
def processPages : List PageInput → Except Unit (List (List (List Item)))
  | [] => Except.ok []
  | PageInput.renderFail :: _ => Except.error ()
  | PageInput.page d :: rest =>
    match processPages rest with
    | Except.error e => Except.error e
    | Except.ok r => Except.ok (pageLines d :: r)

/-- One iteration of the character loop at lines 159-167 of `main.py`.  The
accumulator pair is (finished paragraphs, `current` payload list); a payload
equal to `"+"` flushes `current` (strip, drop if empty), any other payload is
appended to `current`. -/
def composeStep (acc : List Str × List Str) (ch : Str) : List Str × List Str :=
  if ch = ['+'] then
    let paragraph := pyStrip acc.2.flatten
    (if paragraph ≠ [] then acc.1 ++ [paragraph] else acc.1, [])
  else
    (acc.1, acc.2 ++ [ch])

/-- Lines 150-172 of `main.py`: scan the payload stream splitting on `"+"`,
then flush any remaining content as the last paragraph. -/
def composeParagraphs (stream : List Str) : List Str :=
  let r := stream.foldl composeStep ([], [])
  let tail := pyStrip r.2.flatten
  if tail ≠ [] then r.1 ++ [tail] else r.1

/-- Lines 153-158 of `main.py`: linearize pages, then lines, then within-line
items into the payload stream.  (The `continue` on an empty page line list at
lines 154-155 skips nothing that `flatten` would keep.) -/
def charStream (pages : List (List (List Item))) : List Str :=
  pages.flatten.flatten.map Item.text

/-- `decode_qr_from_pdf` (lines 42-174 of `main.py`) over the abstract page
inputs.  `depsAvailable = false` models the `ImportError` branch at lines 49-56
(the function raises `RuntimeError`); otherwise the pages are processed, the
paragraphs composed, joined with `"\n"` and stripped of outer newlines
(line 174). -/
def decode_qr_from_pdf (depsAvailable : Bool) (pages : List PageInput) :
    Except Unit Str :=
  if depsAvailable then
    match processPages pages with
    | Except.error e => Except.error e
    | Except.ok ps =>
      Except.ok (stripNewlines (List.intercalate ['\n'] (composeParagraphs (charStream ps))))
  else Except.error ()

/-- The abstract environment `main` (lines 177-218 of `main.py`) runs in:
whether the input file exists, the result of the direct text-extraction path
(`extract_text_from_pdf`, an external collaborator whose empty result triggers
the QR fallback), and the inputs of the QR fallback. -/
structure Env where
  inputExists : Bool
  directText : Str
  qrDepsAvailable : Bool
  qrPages : List PageInput

/-- `main` (lines 177-218 of `main.py`), returning the process exit code and
the list of write events to the output file.  Missing input exits 1 before any
write (lines 198-200); a raising fallback exits 2 before any write
(lines 207-211); otherwise the text is written exactly once at line 217 and the
program exits 0. -/
def main' (env : Env) : Nat × List Str :=
  if ¬ env.inputExists then (1, [])
  else
    let text := env.directText
    if text = [] then
      match decode_qr_from_pdf env.qrDepsAvailable env.qrPages with
      | Except.error _ => (2, [])
      | Except.ok t => (0, [t])
    else (0, [text])


/-! Helper lemmas about `pyStrip`. -/

lemma dropWhile_dropWhile (p : Char → Bool) (l : Str) :
    List.dropWhile p (List.dropWhile p l) = List.dropWhile p l := by
  induction l with
  | nil => rfl
  | cons a t ih =>
    cases hpa : p a <;> simp [List.dropWhile_cons, hpa, ih]

lemma head_false_of_dropWhile_self {p : Char → Bool} {a : Char} {t : Str}
    (h : List.dropWhile p (a :: t) = a :: t) : p a = false := by
  cases hpa : p a
  · rfl
  · exfalso
    rw [List.dropWhile_cons, hpa] at h
    simp only [if_true] at h
    have hlen := (List.dropWhile_suffix (l := t) p).sublist.length_le
    rw [h] at hlen
    simp at hlen

lemma dropWhile_of_prefix {p : Char → Bool} {l r : Str}
    (hl : List.dropWhile p l = l) (hr : r <+: l) :
    List.dropWhile p r = r := by
  cases r with
  | nil => rfl
  | cons a t =>
    obtain ⟨u, hu⟩ := hr
    subst hu
    have ha : p a = false := by
      rw [List.cons_append] at hl
      exact head_false_of_dropWhile_self hl
    rw [List.dropWhile_cons, ha]
    simp

lemma pyStrip_dropWhile_self (s : Str) :
    List.dropWhile Char.isWhitespace (pyStrip s) = pyStrip s := by
  unfold pyStrip
  apply dropWhile_of_prefix (l := List.dropWhile Char.isWhitespace s)
  · exact dropWhile_dropWhile _ _
  · rw [← List.reverse_suffix, List.reverse_reverse]
    exact List.dropWhile_suffix _

lemma pyStrip_idem (s : Str) : pyStrip (pyStrip s) = pyStrip s := by
  have h1 : (pyStrip s).reverse.dropWhile Char.isWhitespace = (pyStrip s).reverse := by
    rw [pyStrip, List.reverse_reverse]
    exact dropWhile_dropWhile _ _
  conv_lhs => rw [pyStrip]
  rw [pyStrip_dropWhile_self, h1, List.reverse_reverse]

lemma mem_of_mem_pyStrip {c : Char} {s : Str} (h : c ∈ pyStrip s) : c ∈ s := by
  unfold pyStrip at h
  rw [List.mem_reverse] at h
  have h1 : c ∈ (List.dropWhile Char.isWhitespace s).reverse :=
    (List.dropWhile_sublist _).mem h
  rw [List.mem_reverse] at h1
  exact (List.dropWhile_sublist _).mem h1

/-! Invariants of the paragraph-composition fold. -/

lemma composeStep_fst_good (stream : List Str) (acc : List Str × List Str)
    (hacc : ∀ p ∈ acc.1, pyStrip p = p ∧ p ≠ []) :
    ∀ p ∈ (stream.foldl composeStep acc).1, pyStrip p = p ∧ p ≠ [] := by
  induction stream generalizing acc with
  | nil => exact hacc
  | cons s rest ih =>
    rw [List.foldl_cons]
    apply ih
    intro p hp
    by_cases hs : s = ['+']
    · simp only [composeStep, hs, if_pos] at hp
      by_cases ht : pyStrip acc.2.flatten = []
      · simp only [ht, ne_eq, not_true_eq_false, if_false] at hp
        exact hacc p hp
      · simp only [ne_eq, ht, not_false_eq_true, if_true, List.mem_append,
          List.mem_singleton] at hp
        rcases hp with hp | hp
        · exact hacc p hp
        · subst hp
          exact ⟨pyStrip_idem _, ht⟩
    · simp only [composeStep, hs, if_neg, ite_false] at hp
      exact hacc p hp

lemma composeStep_no_plus (stream : List Str) (acc : List Str × List Str)
    (hstream : ∀ s ∈ stream, s.length ≤ 1)
    (h1 : ∀ p ∈ acc.1, '+' ∉ p) (h2 : ∀ s ∈ acc.2, '+' ∉ s) :
    (∀ p ∈ (stream.foldl composeStep acc).1, '+' ∉ p) ∧
    (∀ s ∈ (stream.foldl composeStep acc).2, '+' ∉ s) := by
  induction stream generalizing acc with
  | nil => exact ⟨h1, h2⟩
  | cons s rest ih =>
    rw [List.foldl_cons]
    refine ih _ (fun x hx => hstream x (List.mem_cons_of_mem _ hx)) ?_ ?_
    · intro p hp
      by_cases hs : s = ['+']
      · simp only [composeStep, hs, if_pos] at hp
        by_cases ht : pyStrip acc.2.flatten = []
        · simp only [ht, ne_eq, not_true_eq_false, if_false] at hp
          exact h1 p hp
        · simp only [ne_eq, ht, not_false_eq_true, if_true, List.mem_append,
            List.mem_singleton] at hp
          rcases hp with hp | hp
          · exact h1 p hp
          · subst hp
            intro hplus
            rcases List.mem_flatten.mp (mem_of_mem_pyStrip hplus) with ⟨l, hl, hcl⟩
            exact h2 l hl hcl
      · simp only [composeStep, hs, if_neg, ite_false] at hp
        exact h1 p hp
    · intro x hx
      by_cases hs : s = ['+']
      · simp only [composeStep, hs, if_pos] at hx
        simp at hx
      · simp only [composeStep, hs, if_neg, ite_false, List.mem_append,
          List.mem_singleton] at hx
        rcases hx with hx | hx
        · exact h2 x hx
        · subst hx
          intro hplus
          have hlen := hstream x (List.mem_cons_self _ _)
          match x, hplus, hlen with
          | c :: t, hplus, hlen =>
            have ht : t = [] := by
              simp only [List.length_cons] at hlen
              exact List.eq_nil_of_length_eq_zero (by omega)
            subst ht
            simp only [List.mem_singleton] at hplus
            subst hplus
            exact hs rfl

/-- C1: the paragraph reconstruction never emits a paragraph that is empty
after whitespace trimming; when every payload is a single character (as the
encoding guarantees), the delimiter character `'+'` never appears in any
emitted paragraph; and two consecutive delimiters produce no empty paragraph
between them. -/
theorem C1_delimiter_property :
    (∀ stream : List Str, ∀ p ∈ composeParagraphs stream, pyStrip p ≠ []) ∧
    (∀ stream : List Str, (∀ s ∈ stream, s.length ≤ 1) →
      ∀ p ∈ composeParagraphs stream, '+' ∉ p) ∧
    composeParagraphs [['A'], ['+'], ['+'], ['B']] = [['A'], ['B']] := by
  refine ⟨?_, ?_, by decide⟩
  · intro stream p hp
    have hgood := composeStep_fst_good stream ([], []) (by simp)
    unfold composeParagraphs at hp
    by_cases ht : pyStrip (stream.foldl composeStep ([], [])).2.flatten = []
    · simp only [ht, ne_eq, not_true_eq_false, if_false] at hp
      rw [(hgood p hp).1]
      exact (hgood p hp).2
    · simp only [ne_eq, ht, not_false_eq_true, if_true, List.mem_append,
        List.mem_singleton] at hp
      rcases hp with hp | hp
      · rw [(hgood p hp).1]
        exact (hgood p hp).2
      · subst hp
        rw [pyStrip_idem]
        exact ht
  · intro stream hlen p hp
    obtain ⟨hA, hB⟩ := composeStep_no_plus stream ([], []) hlen (by simp) (by simp)
    unfold composeParagraphs at hp
    by_cases ht : pyStrip (stream.foldl composeStep ([], [])).2.flatten = []
    · simp only [ht, ne_eq, not_true_eq_false, if_false] at hp
      exact hA p hp
    · simp only [ne_eq, ht, not_false_eq_true, if_true, List.mem_append,
        List.mem_singleton] at hp
      rcases hp with hp | hp
      · exact hA p hp
      · subst hp
        intro hplus
        rcases List.mem_flatten.mp (mem_of_mem_pyStrip hplus) with ⟨l, hl, hcl⟩
        exact hB l hl hcl

/-- Witness for C1: on the concrete stream `["A", "+"]` the emitted paragraph
`"A"` does not contain the delimiter. -/
theorem C1_delimiter_property_witness :
    (∀ s ∈ [['A'], ['+']], List.length s ≤ 1) ∧ '+' ∉ (['A'] : Str) :=
  ⟨by decide, C1_delimiter_property.2.1 [['A'], ['+']] (by decide) ['A'] (by decide)⟩

lemma foldl_composeStep_no_delim (stream : List Str) (acc : List Str × List Str)
    (h : ∀ s ∈ stream, s ≠ ['+']) :
    stream.foldl composeStep acc = (acc.1, acc.2 ++ stream) := by
  induction stream generalizing acc with
  | nil => simp
  | cons s rest ih =>
    rw [List.foldl_cons,
      show composeStep acc s = (acc.1, acc.2 ++ [s]) by
        simp [composeStep, h s (List.mem_cons_self _ _)],
      ih _ (fun x hx => h x (List.mem_cons_of_mem _ hx))]
    simp

/-- C10: a payload flushes the paragraph accumulator if and only if it is
exactly the one-character string `"+"`: a stream none of whose payloads equals
`"+"` is joined verbatim into (at most) a single paragraph, the lone payload
`"+"` produces no paragraph at all, and the multi-character payload `"A+B"` is
emitted verbatim, so `'+'` can appear inside an emitted paragraph. -/
theorem C10_delimiter_is_exactly_plus :
    (∀ stream : List Str, (∀ s ∈ stream, s ≠ ['+']) →
      composeParagraphs stream =
        if pyStrip stream.flatten ≠ [] then [pyStrip stream.flatten] else []) ∧
    composeParagraphs [['+']] = [] ∧
    composeParagraphs [['A', '+', 'B']] = [['A', '+', 'B']] ∧
    '+' ∈ (['A', '+', 'B'] : Str) := by
  refine ⟨?_, by decide, by decide, by decide⟩
  intro stream h
  unfold composeParagraphs
  rw [foldl_composeStep_no_delim stream ([], []) h]
  simp

/-- Witness for C10: the delimiter-free stream `["A", "B"]` joins into the
single paragraph `"AB"`. -/
theorem C10_delimiter_is_exactly_plus_witness :
    (∀ s ∈ [['A'], ['B']], s ≠ (['+'] : Str)) ∧
    composeParagraphs [['A'], ['B']] =
      if pyStrip ([['A'], ['B']] : List Str).flatten ≠ []
        then [pyStrip ([['A'], ['B']] : List Str).flatten] else [] :=
  ⟨by decide, C10_delimiter_is_exactly_plus.1 [['A'], ['B']] (by decide)⟩

/-! Scenario A of the spec: the stream H,E,L,L,O,+,W,O,R,L,D on a single line. -/

/-- The payload list of scenario A. -/
def infosA : List Str :=
  [['H'], ['E'], ['L'], ['L'], ['O'], ['+'], ['W'], ['O'], ['R'], ['L'], ['D']]

/-- Geometry for scenario A: one row (centroid y 0), centroid x 1..11,
bounding height 10. -/
def geomsA : List (Option Geom) :=
  [some ⟨0, 1, 10⟩, some ⟨0, 2, 10⟩, some ⟨0, 3, 10⟩, some ⟨0, 4, 10⟩,
   some ⟨0, 5, 10⟩, some ⟨0, 6, 10⟩, some ⟨0, 7, 10⟩, some ⟨0, 8, 10⟩,
   some ⟨0, 9, 10⟩, some ⟨0, 10, 10⟩, some ⟨0, 11, 10⟩]

/-- Scenario A as one detected page. -/
def pageA : PageDetect := ⟨infosA, some geomsA⟩

/-- The items built from scenario A's page. -/
def itemsA : List Item :=
  [⟨0, 1, ['H'], 10⟩, ⟨0, 2, ['E'], 10⟩, ⟨0, 3, ['L'], 10⟩, ⟨0, 4, ['L'], 10⟩,
   ⟨0, 5, ['O'], 10⟩, ⟨0, 6, ['+'], 10⟩, ⟨0, 7, ['W'], 10⟩, ⟨0, 8, ['O'], 10⟩,
   ⟨0, 9, ['R'], 10⟩, ⟨0, 10, ['L'], 10⟩, ⟨0, 11, ['D'], 10⟩]

/-- The expected final output of scenario A. -/
def outA : Str := ['H', 'E', 'L', 'L', 'O', '\n', 'W', 'O', 'R', 'L', 'D']

lemma buildItems_pageA : buildItems pageA = itemsA := by decide

lemma clusterLines_itemsA : clusterLines itemsA = [itemsA] := by
  norm_num [clusterLines, y_threshold, median_h, median, sortYX, sortX, yxLe, xLe,
    itemsA, List.insertionSort, List.orderedInsert, clusterStep, clusterFinish,
    List.foldl, ne_eq, List.cons_ne_nil]

lemma pageLines_pageA : pageLines pageA = [itemsA] := by
  simp only [pageLines, buildItems_pageA]
  rw [if_neg (by decide : ¬ itemsA = []), clusterLines_itemsA]

/-- C2: appending a trailing delimiter to any stream changes nothing — i.e.
when the stream ends without one, the accumulated characters are still flushed
as the final paragraph — and scenario A (stream H,E,L,L,O,+,W,O,R,L,D on a
single line) decodes to the paragraphs joined as `"HELLO\nWORLD"`. -/
theorem C2_trailing_flush :
    (∀ stream : List Str,
      composeParagraphs (stream ++ [['+']]) = composeParagraphs stream) ∧
    decode_qr_from_pdf true [PageInput.page pageA] = Except.ok outA := by
  constructor
  · intro stream
    unfold composeParagraphs
    rw [List.foldl_append]
    rw [show ∀ r : List Str × List Str, List.foldl composeStep r [['+']] =
          (if pyStrip r.2.flatten ≠ [] then r.1 ++ [pyStrip r.2.flatten] else r.1, [])
        from fun r => by simp [composeStep]]
    simp [pyStrip]
  · have h1 : processPages [PageInput.page pageA] = Except.ok [[itemsA]] := by
      simp [processPages, pageLines_pageA]
    simp only [decode_qr_from_pdf, h1, if_true, Except.ok.injEq]
    decide

/-- Scenario C of the spec: one page with symbol heights 18, 20, 22. -/
def itemsC : List Item :=
  [⟨0, 0, ['a'], 18⟩, ⟨0, 1, ['b'], 20⟩, ⟨0, 2, ['c'], 22⟩]

/-- C3: for a page with at least one detected symbol the clustering threshold
equals max(5.0, 0.6 × median of the page's bounding heights); 20.0 is used as
the median when there are no symbols; and for heights [18, 20, 22] the median
is 20 and the threshold 12.0. -/
theorem C3_threshold_formula (items : List Item) (h : items ≠ []) :
    y_threshold items = max 5 ((6 / 10) * median (items.map Item.size)) ∧
    median_h ([] : List Item) = 20 ∧
    median_h itemsC = 20 ∧
    y_threshold itemsC = 12 := by
  refine ⟨?_, by simp [median_h], ?_, ?_⟩
  · rw [y_threshold, median_h, if_pos h]
  · norm_num [median_h, median, itemsC, List.insertionSort, List.orderedInsert,
      ne_eq, List.cons_ne_nil]
  · norm_num [y_threshold, median_h, median, itemsC, List.insertionSort,
      List.orderedInsert, ne_eq, List.cons_ne_nil]

/-- Witness for C3: the threshold formula applied to scenario C's items. -/
theorem C3_threshold_formula_witness :
    y_threshold itemsC = max 5 ((6 / 10) * median (itemsC.map Item.size)) :=
  (C3_threshold_formula itemsC (by decide)).1

/-- C4: in the clustering pass, when the running centroid `current_y` is set,
a symbol within the threshold of it is appended to the current cluster and the
centroid becomes 0.7 × current_y + 0.3 × symbol.y; a symbol beyond it finalizes
the current cluster sorted by x and starts a new cluster at the symbol's y. -/
theorem C4_cluster_transition (thr cy : ℚ) (st : ClusterState) (it : Item)
    (hst : st.currentY = some cy) :
    (|it.cy - cy| ≤ thr →
      clusterStep thr st it =
        ⟨st.lines, st.current ++ [it], some ((7 / 10) * cy + (3 / 10) * it.cy)⟩) ∧
    (¬ |it.cy - cy| ≤ thr →
      clusterStep thr st it =
        ⟨st.lines ++ [sortX st.current], [it], some it.cy⟩) := by
  obtain ⟨ls, cur, curY⟩ := st
  simp only [ClusterState.currentY] at hst
  subst hst
  constructor
  · intro h
    simp only [clusterStep]
    rw [if_pos h]
    simp only [ClusterState.mk.injEq, Option.some.injEq]
    exact ⟨trivial, trivial, by ring⟩
  · intro h
    simp only [clusterStep]
    rw [if_neg h]

/-- Witness for C4: a concrete in-threshold step appends the symbol and smooths
the centroid. -/
theorem C4_cluster_transition_witness :
    clusterStep 6 ⟨[], [⟨0, 1, ['a'], 10⟩], some 0⟩ ⟨1, 2, ['b'], 10⟩ =
      ⟨[], [⟨0, 1, ['a'], 10⟩, ⟨1, 2, ['b'], 10⟩], some ((7 / 10) * 0 + (3 / 10) * 1)⟩ :=
  (C4_cluster_transition 6 0 ⟨[], [⟨0, 1, ['a'], 10⟩], some 0⟩ ⟨1, 2, ['b'], 10⟩
    rfl).1 (by norm_num)

lemma foldl_clusterStep_lines (thr : ℚ) (items : List Item) (st : ClusterState)
    (h : ∀ l ∈ st.lines, ∃ c, l = sortX c) :
    ∀ l ∈ (items.foldl (clusterStep thr) st).lines, ∃ c, l = sortX c := by
  induction items generalizing st with
  | nil => exact h
  | cons it rest ih =>
    rw [List.foldl_cons]
    apply ih
    intro l hl
    obtain ⟨ls, cur, curY⟩ := st
    cases curY with
    | none => exact h l hl
    | some cy =>
      simp only [clusterStep] at hl
      by_cases hin : |it.cy - cy| ≤ thr
      · rw [if_pos hin] at hl
        exact h l hl
      · rw [if_neg hin] at hl
        simp only [List.mem_append, List.mem_singleton] at hl
        rcases hl with hl | hl
        · exact h l hl
        · exact ⟨cur, hl⟩

lemma clusterLines_mem_sortX (items : List Item) :
    ∀ l ∈ clusterLines items, ∃ c, l = sortX c := by
  intro l hl
  have h0 := foldl_clusterStep_lines (y_threshold items) (sortYX items)
    ⟨[], [], none⟩ (by simp)
  unfold clusterLines clusterFinish at hl
  by_cases hc : ((sortYX items).foldl (clusterStep (y_threshold items))
      ⟨[], [], none⟩).current ≠ []
  · rw [if_pos hc] at hl
    simp only [List.mem_append, List.mem_singleton] at hl
    rcases hl with hl | hl
    · exact h0 l hl
    · exact ⟨_, hl⟩
  · rw [if_neg hc] at hl
    exact h0 l hl

/-- C5 counterexample: two symbols that share centroid x 5 land in one cluster,
and the emitted line is the stable x-sort of both, which is not strictly
increasing in centroid x. -/
theorem C5_counterexample :
    clusterLines [⟨0, 5, ['A'], 10⟩, ⟨1, 5, ['B'], 10⟩] =
      [[⟨0, 5, ['A'], 10⟩, ⟨1, 5, ['B'], 10⟩]] ∧
    ¬ List.Chain' (fun a b : Item => a.cx < b.cx)
      [⟨0, 5, ['A'], 10⟩, ⟨1, 5, ['B'], 10⟩] := by
  constructor
  · norm_num [clusterLines, y_threshold, median_h, median, sortYX, sortX, yxLe,
      xLe, List.insertionSort, List.orderedInsert, clusterStep, clusterFinish,
      List.foldl, ne_eq, List.cons_ne_nil]
  · simp

/-- C5 (amended): the symbols within every emitted line are ordered
non-decreasingly by centroid x, and strictly whenever the line's x-centroids
are pairwise distinct. -/
theorem C5_line_x_order (items : List Item) :
    ∀ l ∈ clusterLines items, List.Sorted xLe l ∧
      ((l.map Item.cx).Nodup →
        List.Chain' (fun a b : Item => a.cx < b.cx) l) := by
  intro l hl
  obtain ⟨c, rfl⟩ := clusterLines_mem_sortX items l hl
  refine ⟨List.sorted_insertionSort xLe c, ?_⟩
  intro hnd
  have hle : List.Pairwise xLe (sortX c) := List.sorted_insertionSort xLe c
  have hne : List.Pairwise (fun a b : Item => a.cx ≠ b.cx) (sortX c) :=
    List.pairwise_map.mp hnd
  exact ((hle.and hne).imp fun h => lt_of_le_of_ne h.1 h.2).chain'

/-- Witness for C5 (amended): the single line produced from one symbol is
sorted by centroid x. -/
theorem C5_line_x_order_witness :
    List.Sorted xLe [(⟨0, 5, ['A'], 10⟩ : Item)] ∧
      (([(⟨0, 5, ['A'], 10⟩ : Item)].map Item.cx).Nodup →
        List.Chain' (fun a b : Item => a.cx < b.cx)
          [(⟨0, 5, ['A'], 10⟩ : Item)]) :=
  C5_line_x_order [⟨0, 5, ['A'], 10⟩] [⟨0, 5, ['A'], 10⟩]
    (by norm_num [clusterLines, y_threshold, median_h, median, sortYX, sortX,
      yxLe, xLe, List.insertionSort, List.orderedInsert, clusterStep,
      clusterFinish, List.foldl, ne_eq, List.cons_ne_nil])

/-- C6: a payload/geometry length mismatch yields zero symbols for the page,
zero lines, and a normally-returned (not raised) empty decode result. -/
theorem C6_mismatch_zero_symbols (infos : List Str) (pts : List (Option Geom))
    (h : infos.length ≠ pts.length) :
    buildItems ⟨infos, some pts⟩ = [] ∧
    pageLines ⟨infos, some pts⟩ = [] ∧
    decode_qr_from_pdf true [PageInput.page ⟨infos, some pts⟩] = Except.ok [] := by
  have hb : buildItems ⟨infos, some pts⟩ = [] := by
    simp only [buildItems]
    rw [if_neg h]
  refine ⟨hb, by simp [pageLines, hb], ?_⟩
  have h1 : processPages [PageInput.page ⟨infos, some pts⟩] = Except.ok [[]] := by
    simp [processPages, pageLines, hb]
  simp only [decode_qr_from_pdf, h1, if_true, Except.ok.injEq]
  decide

/-- Witness for C6: scenario D, a payload list of length 3 against a geometry
list of length 2 produces zero symbols. -/
theorem C6_mismatch_zero_symbols_witness :
    List.length [['a'], ['b'], ['c']] ≠
      List.length [some (⟨0, 0, 10⟩ : Geom), some ⟨0, 1, 10⟩] ∧
    buildItems ⟨[['a'], ['b'], ['c']],
      some [some ⟨0, 0, 10⟩, some ⟨0, 1, 10⟩]⟩ = [] :=
  ⟨by decide, (C6_mismatch_zero_symbols [['a'], ['b'], ['c']]
    [some ⟨0, 0, 10⟩, some ⟨0, 1, 10⟩] (by decide)).1⟩

/-- A page whose detection succeeds, used to show that pages after a
rendering failure are never reached. -/
def pageG : PageDetect := ⟨[['X']], some [some ⟨0, 0, 10⟩]⟩

/-- C7 counterexample: a rasterization failure on the first page makes the
whole QR-decoding pipeline return an error — it is not recovered locally, the
second (decodable) page is never processed, and no decode result is produced. -/
theorem C7_counterexample :
    decode_qr_from_pdf true [PageInput.renderFail, PageInput.page pageG] =
      Except.error () := by
  rfl

/-- C7 (amended): a per-page rasterization failure is not recovered locally —
wherever it occurs in the page list, the exception propagates out of
`decode_qr_from_pdf` (so `main` reports it and exits with status 2) and no
page's symbols are returned. -/
theorem C7_render_failure_propagates (pre post : List PageInput) :
    decode_qr_from_pdf true (pre ++ PageInput.renderFail :: post) =
      Except.error () := by
  have h : processPages (pre ++ PageInput.renderFail :: post) =
      Except.error () := by
    induction pre with
    | nil => rfl
    | cons p rest ih =>
      cases p with
      | renderFail => rfl
      | page d => simp only [List.cons_append, processPages, List.append_eq, ih]
  simp [decode_qr_from_pdf, h]

/-- Witness for C7 (amended): the one-page document whose only page fails to
render decodes to an error. -/
theorem C7_render_failure_propagates_witness :
    decode_qr_from_pdf true ([] ++ PageInput.renderFail :: []) =
      Except.error () :=
  C7_render_failure_propagates [] []

/-- C8: `main` exits 1 when the input file does not exist and 2 when the QR
fallback raises, writing nothing in either fatal case; whenever it exits 0 the
output file is written exactly once, with the pipeline's final text. -/
theorem C8_exit_codes (env : Env) :
    (¬ env.inputExists → main' env = (1, [])) ∧
    (env.inputExists → env.directText = [] →
      decode_qr_from_pdf env.qrDepsAvailable env.qrPages = Except.error () →
      main' env = (2, [])) ∧
    ((main' env).1 ≠ 0 → (main' env).2 = []) ∧
    ((main' env).1 = 0 → ∃ t, (main' env).2 = [t]) := by
  by_cases hie : env.inputExists
  · by_cases hdt : env.directText = []
    · cases herr : decode_qr_from_pdf env.qrDepsAvailable env.qrPages with
      | error e =>
        have hm : main' env = (2, []) := by simp [main', hie, hdt, herr]
        exact ⟨fun h => absurd hie h, fun _ _ _ => hm, by simp [hm], by simp [hm]⟩
      | ok t =>
        have hm : main' env = (0, [t]) := by simp [main', hie, hdt, herr]
        exact ⟨fun h => absurd hie h, fun _ _ h3 => absurd h3 (by simp),
          by simp [hm], by simp [hm]⟩
    · have hm : main' env = (0, [env.directText]) := by simp [main', hie, hdt]
      exact ⟨fun h => absurd hie h, fun _ h2 _ => absurd h2 hdt, by simp [hm],
        by simp [hm]⟩
  · have hm : main' env = (1, []) := by simp [main', hie]
    exact ⟨fun _ => hm, fun h => absurd h hie, by simp [hm], by simp [hm]⟩

/-- Witness for C8: with a missing input file the program exits 1 and writes
nothing. -/
theorem C8_exit_codes_witness : main' ⟨false, [], true, []⟩ = (1, []) :=
  (C8_exit_codes ⟨false, [], true, []⟩).1 (by decide)

/-- C9: on a page whose payload and geometry lists match in length, a symbol
whose geometry computation raises is skipped on its own: the remaining symbols
produce exactly the items (and lines) they would produce without it, and the
page is still processed normally. -/
theorem C9_symbol_skip (infos1 infos2 : List Str) (pts1 pts2 : List (Option Geom))
    (i : Str) (h1 : infos1.length = pts1.length)
    (h2 : infos2.length = pts2.length) :
    buildItems ⟨infos1 ++ i :: infos2, some (pts1 ++ none :: pts2)⟩ =
      buildItems ⟨infos1 ++ infos2, some (pts1 ++ pts2)⟩ ∧
    pageLines ⟨infos1 ++ i :: infos2, some (pts1 ++ none :: pts2)⟩ =
      pageLines ⟨infos1 ++ infos2, some (pts1 ++ pts2)⟩ := by
  have hlenL : (infos1 ++ i :: infos2).length = (pts1 ++ none :: pts2).length := by
    simp [h1, h2]
  have hlenR : (infos1 ++ infos2).length = (pts1 ++ pts2).length := by
    simp [h1, h2]
  have hb : buildItems ⟨infos1 ++ i :: infos2, some (pts1 ++ none :: pts2)⟩ =
      buildItems ⟨infos1 ++ infos2, some (pts1 ++ pts2)⟩ := by
    simp only [buildItems, if_pos hlenL, if_pos hlenR]
    rw [List.zip_append h1, List.zip_append h1]
    simp [List.filterMap_append]
  exact ⟨hb, by simp [pageLines, hb]⟩

/-- Witness for C9: with one good symbol on each side, the middle symbol whose
geometry raised contributes nothing and the others survive. -/
theorem C9_symbol_skip_witness :
    List.length [['a']] = List.length [some (⟨0, 0, 10⟩ : Geom)] ∧
    buildItems ⟨[['a']] ++ ['x'] :: [['b']],
        some ([some ⟨0, 0, 10⟩] ++ none :: [some ⟨0, 1, 10⟩])⟩ =
      buildItems ⟨[['a']] ++ [['b']],
        some ([some ⟨0, 0, 10⟩] ++ [some ⟨0, 1, 10⟩])⟩ :=
  ⟨by decide, (C9_symbol_skip [['a']] [['b']] [some ⟨0, 0, 10⟩]
    [some ⟨0, 1, 10⟩] ['x'] (by decide) (by decide)).1⟩
